import Mathlib

/-!
Shallow embedding of the zacks ingestion pipeline (src/index.js,
src/unnamed/part_000, src/db-setup.js).

The repository contains two generations of the pipeline:

* `src/index.js` — `getStockId` (plain SELECT-then-INSERT), a plain-INSERT
  `saveZacksRanking` that swallows `23505` unique violations, a bare retry
  loop, and a `processCSV` without counters.
* `src/unnamed/part_000` (its second half, labelled `index.js` in a comment)
  — `getOrCreateStockId` (SELECT, then `INSERT … ON CONFLICT (ticker) DO
  UPDATE SET name = $2 RETURNING id`), an upserting `saveZacksRanking`
  (`ON CONFLICT (stock_id, updatedAt) DO UPDATE … RETURNING (xmax = 0) AS
  inserted`), `getDataWithRetry` with payload validation and `observedAt`
  normalization, `processCSV` with per-row units pushed into
  `pendingPromises`, and `main` with the run counters.

Both are embedded below.  Database statements are modelled at statement
granularity: each SQL statement is one atomic step against the committed
store state, which is the observable behaviour of the source's
READ COMMITTED transactions for these statement patterns; concurrent calls
are an arbitrary interleaving of their statement steps.
-/

namespace Zacks

/-- Model of the JavaScript values that flow through the pipeline's payload
fields (`zacksRankText`, `zacksRank`, `updatedAt`).  `vnull` stands for both
`null` and `undefined` (the code distinguishes them only via `== null`,
which matches both, and via `typeof`-branches under which both fall into the
same arm); `vdate t` is a `Date` carrying a valid epoch time `t`;
`vdateInvalid` is a `Date` whose time is `NaN`. -/
inductive JVal where
  | vnull
  | vstr (s : String)
  | vnum (n : Int)
  | vdate (t : Int)
  | vdateInvalid
deriving Repr, DecidableEq

/-- JavaScript falsiness test used by `!data.zacksRankText` in
`saveZacksRanking` (src/unnamed/part_000 line 146). -/
def jsFalsy : JVal → Bool
  | .vnull => true
  | .vstr s => s = ""
  | .vnum n => n = 0
  | .vdate _ => false
  | .vdateInvalid => false

/-- Model of JavaScript numeric coercion of a string, used by `isNaN`. -/
def jsStrToNumber (s : String) : Option Int :=
  s.toInt?

/-- Model of JavaScript `isNaN(v)` for the values the pipeline can feed it
(src/unnamed/part_000 line 149, `isNaN(data.zacksRank)`). -/
def jsIsNaN : JVal → Bool
  | .vnull => false
  | .vstr s => (jsStrToNumber s).isNone
  | .vnum _ => false
  | .vdate _ => false
  | .vdateInvalid => true

/-- Loose-equality-with-null test, `v == null` in JavaScript. -/
def jsEqNull : JVal → Bool
  | .vnull => true
  | _ => false

/-- The provider payload shape `{zacksRankText, zacksRank, updatedAt}`
(spec §6; fields read by src/unnamed/part_000 lines 146–149, 216, 223). -/
structure Payload where
  zacksRankText : JVal
  zacksRank : JVal
  updatedAt : JVal
deriving Repr, DecidableEq

/-- Result of one `api.getData(ticker)` call: it may throw (`err`), resolve
`null` (`nullResp`), resolve a non-object value (`nonObject`, i.e.
`typeof data !== "object"`), or resolve a structured record (`obj`). -/
inductive ApiResult where
  | err
  | nullResp
  | nonObject
  | obj (p : Payload)
deriving Repr, DecidableEq

/-- Ambient environment of a run: the JS `new Date(string)` parser (as an
oracle returning the epoch time when the string parses) and the current
wall-clock time `now` (`new Date()`). -/
structure Env where
  parseDate : String → Option Int
  now : Int

/-- Classified outcome of `getDataWithRetry` (src/unnamed/part_000
lines 192–255): the code returns the data, or returns `null` after either a
no-ranking/incomplete observation or exhausted retries; the counters it
touches distinguish the two `null` cases. -/
inductive FetchOutcome where
  | success (p : Payload)
  | noRanking
  | failed
deriving Repr, DecidableEq

/-- Observable result of a `getDataWithRetry` call: classified outcome,
number of attempts performed, the list of backoff waits performed (in ms,
in order), and the increments applied to `noRankingStocks` and
`failedRetrievals`. -/
structure FetchResult where
  outcome : FetchOutcome
  attempts : Nat
  delays : List Nat
  noRankingDelta : Nat
  failedRetrievalsDelta : Nat
deriving Repr, DecidableEq

/-- What one iteration of the retry loop's `try` block does, given the
api result of that attempt (src/unnamed/part_000 lines 194–241):
`threw` — an exception reached the attempt's `catch` (api error, or the
`throw new Error("Invalid data received from API")` for a non-object
payload); `retNull` — `return null` after incrementing `noRankingStocks`
(null response, or incomplete `zacksRank`/`zacksRankText`); `retData` —
`return data` with `updatedAt` normalized. -/
inductive AttemptStep where
  | threw
  | retNull
  | retData (p : Payload)
deriving Repr, DecidableEq

/-- Body of one attempt of `getDataWithRetry` (src/unnamed/part_000
lines 194–241), translated arm by arm:
`data === null` → no-ranking return; `typeof data !== "object"` → throw;
`data.zacksRank == null || data.zacksRankText == null` → incomplete return;
then the `updatedAt` check: a string is parsed with `new Date` and used if
valid, else replaced by `new Date()`; a valid `Date` is kept; an invalid
`Date` is replaced by now; any other value (missing) is replaced by now. -/
def attemptBody (env : Env) : ApiResult → AttemptStep
  | .err => .threw
  | .nullResp => .retNull
  | .nonObject => .threw
  | .obj p =>
    if jsEqNull p.zacksRank || jsEqNull p.zacksRankText then
      .retNull
    else
      match p.updatedAt with
      | .vstr s =>
        match env.parseDate s with
        | some t => .retData { p with updatedAt := .vdate t }
        | none => .retData { p with updatedAt := .vdate env.now }
      | .vdate t => .retData { p with updatedAt := .vdate t }
      | .vdateInvalid => .retData { p with updatedAt := .vdate env.now }
      | _ => .retData { p with updatedAt := .vdate env.now }

/-- The retry loop `for (let attempt = 1; attempt <= maxRetries; attempt++)`
of `getDataWithRetry` (src/unnamed/part_000 lines 193–254).  `attempt` is
the 1-based index of the current attempt, the second argument the number of
attempts still allowed.  After a caught error the code waits `delay` only
when `attempt < maxRetries`; falling out of the loop performs
`failedRetrievals++; noRankingStocks++; return null`. -/
def retryLoop (env : Env) (api : Nat → ApiResult) (delay : Nat) :
    Nat → Nat → FetchResult
  | _, 0 =>
    { outcome := .failed, attempts := 0, delays := [],
      noRankingDelta := 1, failedRetrievalsDelta := 1 }
  | attempt, remaining + 1 =>
    match attemptBody env (api attempt) with
    | .retNull =>
      { outcome := .noRanking, attempts := 1, delays := [],
        noRankingDelta := 1, failedRetrievalsDelta := 0 }
    | .retData p =>
      { outcome := .success p, attempts := 1, delays := [],
        noRankingDelta := 0, failedRetrievalsDelta := 0 }
    | .threw =>
      let rest := retryLoop env api delay (attempt + 1) remaining
      { rest with
        attempts := rest.attempts + 1,
        delays := (if remaining > 0 then [delay] else []) ++ rest.delays }

/-- `getDataWithRetry(ticker, maxRetries, delay)` (src/unnamed/part_000
line 192), with the api's per-attempt behaviour supplied as a function of
the 1-based attempt index. -/
def getDataWithRetry (env : Env) (api : Nat → ApiResult)
    (maxRetries : Nat) (delay : Nat) : FetchResult :=
  retryLoop env api delay 1 maxRetries

/-- `getDataWithRetry(ticker)` at its default arguments
`maxRetries = 3, delay = 1000`, as called by `processCSV` (line 271). -/
def getDataWithRetryDefault (env : Env) (api : Nat → ApiResult) : FetchResult :=
  getDataWithRetry env api 3 1000

/-! ### The stocks table and the two identity resolvers -/

/-- One row of the `stocks` table
(`id SERIAL PRIMARY KEY, ticker UNIQUE NOT NULL, name`). -/
structure StockRow where
  id : Nat
  ticker : String
  name : String
deriving Repr, DecidableEq

/-- The `stocks` table with its `SERIAL` id sequence. -/
structure StocksDb where
  rows : List StockRow
  nextId : Nat
deriving Repr, DecidableEq

/-- The `WHERE ticker = $1` predicate. -/
def tickMatch (t : String) (r : StockRow) : Bool :=
  decide (r.ticker = t)

/-- `SELECT id FROM stocks WHERE ticker = $1` (first row, if any). -/
def selectStock (db : StocksDb) (t : String) : Option Nat :=
  (db.rows.find? (tickMatch t)).map (fun r => r.id)

/-- `INSERT INTO stocks (ticker, name) VALUES ($1, $2) RETURNING id`
(src/index.js line 22): a plain insert that raises a `23505` unique
violation when a row with the same ticker already exists. -/
def insertStockPlain (db : StocksDb) (t n : String) :
    Except Unit (Nat × StocksDb) :=
  if db.rows.any (tickMatch t) then
    .error ()
  else
    .ok (db.nextId, ⟨db.rows ++ [⟨db.nextId, t, n⟩], db.nextId + 1⟩)

/-- `INSERT INTO stocks (ticker, name) VALUES ($1, $2) ON CONFLICT (ticker)
DO UPDATE SET name = $2 RETURNING id` (src/unnamed/part_000 line 128):
atomic insert-with-conflict-resolution; on conflict the existing row keeps
its id and its name is overwritten with the supplied one. -/
def insertStockUpsert (db : StocksDb) (t n : String) : Nat × StocksDb :=
  match db.rows.find? (tickMatch t) with
  | some r =>
    (r.id,
      ⟨db.rows.map (fun s => if tickMatch t s then { s with name := n } else s),
        db.nextId⟩)
  | none =>
    (db.nextId, ⟨db.rows ++ [⟨db.nextId, t, n⟩], db.nextId + 1⟩)

/-- Number of `stocks` rows holding ticker `t`. -/
def countT (db : StocksDb) (t : String) : Nat :=
  (db.rows.filter (tickMatch t)).length

deriving instance DecidableEq for Except

/-- Control state of one in-flight resolver call: before its SELECT, before
its INSERT, or finished with either an id or a raised store error. -/
inductive ResolveState where
  | atSelect
  | atInsert
  | done (r : Except Unit Nat)
deriving Repr, DecidableEq

/-- Whether a resolver call has reached its terminal state. -/
def ResolveState.isDone : ResolveState → Bool
  | .done _ => true
  | _ => false

/-- One statement-step of `getOrCreateStockId(ticker, name)`
(src/unnamed/part_000 lines 116–141): SELECT, and if it finds a row return
its id, else run the `ON CONFLICT` insert and return the id it yields.
The surrounding `BEGIN`/`COMMIT` is READ COMMITTED, under which each of the
two statements acts on the committed state as one atomic step. -/
def gocStep (t n : String) : ResolveState → StocksDb → ResolveState × StocksDb
  | .atSelect, db =>
    match selectStock db t with
    | some id => (.done (.ok id), db)
    | none => (.atInsert, db)
  | .atInsert, db =>
    let r := insertStockUpsert db t n
    (.done (.ok r.1), r.2)
  | .done r, db => (.done r, db)

/-- One statement-step of `getStockId(ticker, name)` (src/index.js
lines 15–28): SELECT, and if it finds a row return its id, else run the
plain INSERT; a unique violation from that INSERT propagates out of the
call (there is no catch in `getStockId`). -/
def gsiStep (t n : String) : ResolveState → StocksDb → ResolveState × StocksDb
  | .atSelect, db =>
    match selectStock db t with
    | some id => (.done (.ok id), db)
    | none => (.atInsert, db)
  | .atInsert, db =>
    match insertStockPlain db t n with
    | .ok r => (.done (.ok r.1), r.2)
    | .error _ => (.done (.error ()), db)
  | .done r, db => (.done r, db)

/-- Run one scheduled step: the call with index `i` (whose `name` argument
is `names[i]`) executes its next statement against the shared store. -/
def schedStep (stepFn : String → ResolveState → StocksDb → ResolveState × StocksDb)
    (names : List String) (cfg : List ResolveState × StocksDb) (i : Nat) :
    List ResolveState × StocksDb :=
  match cfg.1.get? i, names.get? i with
  | some s, some nm =>
    let r := stepFn nm s cfg.2
    (cfg.1.set i r.1, r.2)
  | _, _ => cfg

/-- Interleaved execution of one concurrent resolver call per element of
`names` (all for the same ticker), under an arbitrary schedule listing
which call moves at each point. -/
def runSched (stepFn : String → ResolveState → StocksDb → ResolveState × StocksDb)
    (names : List String) (sched : List Nat) (db0 : StocksDb) :
    List ResolveState × StocksDb :=
  sched.foldl (schedStep stepFn names)
    (List.replicate names.length ResolveState.atSelect, db0)

/-- `getOrCreateStockId(ticker, name)` run in isolation (its two statement
steps back to back), with an injected unexpected store error (`crash`):
on error the transaction is rolled back and the error rethrown
(src/unnamed/part_000 lines 134–138). -/
def getOrCreateStockIdRun (crash : Bool) (db : StocksDb) (t n : String) :
    Except Unit (Nat × StocksDb) :=
  if crash then .error ()
  else
    match selectStock db t with
    | some id => .ok (id, db)
    | none => .ok (insertStockUpsert db t n)

/-! ### The zacks_rankings table and the two writers -/

/-- One row of `zacks_rankings` (`id SERIAL, stock_id, zacksRankText,
zacksRank, updatedAt, UNIQUE(stock_id, updatedAt)`). -/
structure RankingRow where
  id : Nat
  stockId : Nat
  zacksRankText : JVal
  zacksRank : JVal
  updatedAt : JVal
deriving Repr, DecidableEq

/-- The `zacks_rankings` table with its `SERIAL` id sequence. -/
structure RankingsDb where
  rows : List RankingRow
  nextId : Nat
deriving Repr, DecidableEq

/-- The `(stock_id, updatedAt)` key predicate of the uniqueness constraint
`UNIQUE(stock_id, updatedAt)`. -/
def pairMatch (sid : Nat) (t : JVal) (r : RankingRow) : Bool :=
  decide (r.stockId = sid ∧ r.updatedAt = t)

/-- `INSERT INTO zacks_rankings (stock_id, zacksRankText, zacksRank,
updatedAt) VALUES ($1,$2,$3,$4)` (src/index.js line 33): raises a `23505`
unique violation when a row with the same `(stock_id, updatedAt)` exists. -/
def insertRankingPlain (db : RankingsDb) (sid : Nat) (p : Payload) :
    Except Unit RankingsDb :=
  if db.rows.any (pairMatch sid p.updatedAt) then
    .error ()
  else
    .ok ⟨db.rows ++ [⟨db.nextId, sid, p.zacksRankText, p.zacksRank, p.updatedAt⟩],
      db.nextId + 1⟩

/-- `INSERT … ON CONFLICT (stock_id, updatedAt) DO UPDATE SET zacksRankText
= EXCLUDED.zacksRankText, zacksRank = EXCLUDED.zacksRank RETURNING
(xmax = 0) AS inserted` (src/unnamed/part_000 lines 159–166).  Returns the
`inserted` flag (`true` when a fresh row was inserted) and the new table. -/
def upsertRanking (db : RankingsDb) (sid : Nat) (p : Payload) :
    Bool × RankingsDb :=
  match db.rows.find? (pairMatch sid p.updatedAt) with
  | some _ =>
    (false,
      ⟨db.rows.map (fun r =>
          if pairMatch sid p.updatedAt r then
            { r with zacksRankText := p.zacksRankText, zacksRank := p.zacksRank }
          else r),
        db.nextId⟩)
  | none =>
    (true,
      ⟨db.rows ++ [⟨db.nextId, sid, p.zacksRankText, p.zacksRank, p.updatedAt⟩],
        db.nextId + 1⟩)

/-- Number of `zacks_rankings` rows for the pair `(sid, t)`. -/
def countPair (db : RankingsDb) (sid : Nat) (t : JVal) : Nat :=
  (db.rows.filter (pairMatch sid t)).length

/-- The up-front validation of part_000's `saveZacksRanking`
(lines 145–154): `!data.zacksRankText || data.zacksRank == null ||
data.updatedAt == null || isNaN(data.zacksRank)`. -/
def saveValidationFails (p : Payload) : Bool :=
  jsFalsy p.zacksRankText || jsEqNull p.zacksRank || jsEqNull p.updatedAt ||
    jsIsNaN p.zacksRank

/-- The run counters of `main` (src/unnamed/part_000 lines 107–114),
used both as absolute totals and as per-row deltas. -/
structure Counters where
  totalProcessed : Nat
  successfulSaves : Nat
  failedRetrievals : Nat
  failedSaves : Nat
  noRankingStocks : Nat
  totalInserts : Nat
  totalUpdates : Nat
  failedProcessing : Nat
deriving Repr, DecidableEq

/-- All-zero counters. -/
def czero : Counters :=
  ⟨0, 0, 0, 0, 0, 0, 0, 0⟩

/-- Pointwise sum of counters. -/
def cadd (a b : Counters) : Counters :=
  ⟨a.totalProcessed + b.totalProcessed,
    a.successfulSaves + b.successfulSaves,
    a.failedRetrievals + b.failedRetrievals,
    a.failedSaves + b.failedSaves,
    a.noRankingStocks + b.noRankingStocks,
    a.totalInserts + b.totalInserts,
    a.totalUpdates + b.totalUpdates,
    a.failedProcessing + b.failedProcessing⟩

/-- `saveZacksRanking(stockId, data)` from src/unnamed/part_000
lines 143–190, with an injected unexpected store error (`crash`) standing
for a query failure inside the transaction.  The result carries the new
table and the counter increments the call performs; `.error` means the call
rethrew (after `ROLLBACK`, `failedSaves++`, `noRankingStocks++`), matching
the code's catch block. -/
def saveZacksRanking (crash : Bool) (db : RankingsDb) (sid : Nat) (p : Payload) :
    Except (RankingsDb × Counters) (RankingsDb × Counters) :=
  if saveValidationFails p then
    .ok (db, { czero with noRankingStocks := 1 })
  else if crash then
    .error (db, { czero with failedSaves := 1, noRankingStocks := 1 })
  else
    let r := upsertRanking db sid p
    .ok (r.2,
      { czero with
        successfulSaves := 1,
        totalInserts := if r.1 then 1 else 0,
        totalUpdates := if r.1 then 0 else 1 })

/-- `saveZacksRanking(stockId, data)` from src/index.js lines 30–46: a
plain INSERT whose `23505` unique violation is caught and merely logged
(`Duplicate entry … not inserted.`), leaving the table unchanged. -/
def saveZacksRankingSimple (db : RankingsDb) (sid : Nat) (p : Payload) :
    RankingsDb :=
  match insertRankingPlain db sid p with
  | .ok db' => db'
  | .error _ => db

/-! ### The run coordinator -/

/-- The whole relational store. -/
structure Db where
  stocks : StocksDb
  rankings : RankingsDb
deriving Repr, DecidableEq

/-- One input row yielded by the CSV stream. -/
structure CsvRow where
  ticker : String
  name : String
deriving Repr, DecidableEq

/-- Environment of one row's unit of work: the api's behaviour on each
attempt, and whether the store errors unexpectedly during resolve / save. -/
structure RowBehavior where
  api : Nat → ApiResult
  resolveCrash : Bool
  saveCrash : Bool

/-- Terminal result of one row's unit of work: the store as the unit left
it, the counter increments it performed, and whether its `catch (error)`
boundary (src/unnamed/part_000 lines 281–285) caught an exception. -/
structure UnitResult where
  db : Db
  delta : Counters
  caught : Bool

/-- The per-row async unit started by `processCSV`'s `data` handler
(src/unnamed/part_000 lines 268–286): `totalProcessed++`, fetch with retry,
and if data came back, resolve the stock id and save; any exception is
caught at the unit boundary with `failedProcessing++; noRankingStocks++`. -/
def processRow (env : Env) (db : Db) (row : CsvRow) (beh : RowBehavior) :
    UnitResult :=
  let fr := getDataWithRetryDefault env beh.api
  let base : Counters :=
    { czero with
      totalProcessed := 1,
      noRankingStocks := fr.noRankingDelta,
      failedRetrievals := fr.failedRetrievalsDelta }
  match fr.outcome with
  | .success p =>
    match getOrCreateStockIdRun beh.resolveCrash db.stocks row.ticker row.name with
    | .error _ =>
      { db := db,
        delta := cadd base { czero with failedProcessing := 1, noRankingStocks := 1 },
        caught := true }
    | .ok (sid, stocks') =>
      match saveZacksRanking beh.saveCrash db.rankings sid p with
      | .ok (rdb, d) =>
        { db := { stocks := stocks', rankings := rdb },
          delta := cadd base d, caught := false }
      | .error (rdb, d) =>
        { db := { stocks := stocks', rankings := rdb },
          delta := cadd (cadd base d)
            { czero with failedProcessing := 1, noRankingStocks := 1 },
          caught := true }
  | .noRanking => { db := db, delta := base, caught := false }
  | .failed => { db := db, delta := base, caught := false }

/-- Accumulated state of a run: the store, plus the terminal result of every
unit started so far — the model of the `pendingPromises` array, each entry
the settled value of one retained handle. -/
structure RunResult where
  db : Db
  units : List (Counters × Bool)
deriving Repr, DecidableEq

/-- Start (and run to completion) the unit for one yielded row, appending
its handle's terminal result. -/
def unitFold (env : Env) (acc : RunResult) (rb : CsvRow × RowBehavior) :
    RunResult :=
  let u := processRow env acc.db rb.1 rb.2
  { db := u.db, units := acc.units ++ [(u.delta, u.caught)] }

/-- Sum of the counter increments of all started units. -/
def totalCounters (res : RunResult) : Counters :=
  res.units.foldl (fun a u => cadd a u.1) czero

/-- What the CSV stream does: yields its rows and then emits `end`, or
yields some rows and then emits `error`. -/
inductive StreamOutcome where
  | ends (rows : List (CsvRow × RowBehavior))
  | errors (rows : List (CsvRow × RowBehavior))
deriving Inhabited

/-- Whether the stream errored. -/
def StreamOutcome.isErrors : StreamOutcome → Bool
  | .ends _ => false
  | .errors _ => true

/-- `processCSV()` (src/unnamed/part_000 lines 257–303): on `end`,
`Promise.all(pendingPromises)` resolves once every started unit is
terminal (units never reject — each catches all its own errors), and the
promise resolves; on a stream `error`, the promise rejects.  The in-flight
units of emitted rows still run to completion against the shared counters
(one admissible schedule); `.error` carries the counters they left. -/
def processCSV (env : Env) (db0 : Db) :
    StreamOutcome → Except Counters RunResult
  | .ends rows =>
    .ok (rows.foldl (unitFold env) { db := db0, units := [] })
  | .errors rows =>
    .error (totalCounters (rows.foldl (unitFold env) { db := db0, units := [] }))

/-- Observable outcome of the whole process (src/unnamed/part_000
lines 305–328): the exit code passed to `process.exit`, the counter summary
printed by `main`'s `finally` block (none when `setup()` failed before the
`try` was entered), and whether a fatal error was logged (`Error processing
CSV:` for a stream error, or `main().catch(console.error)` for a setup
failure). -/
structure MainResult where
  exitCode : Nat
  summary : Option Counters
  fatalLogged : Bool
deriving Repr, DecidableEq

/-- `main()` followed by `.catch(console.error).finally(() =>
process.exit(0))` (src/unnamed/part_000 lines 305–328): a `setup()` failure
rejects `main` before the `try`/`finally`; otherwise `processCSV()`'s
rejection is caught and logged, and the `finally` block always prints the
counters; `process.exit(0)` runs in every case. -/
def mainRun (env : Env) (setupOk : Bool) (db0 : Db) (stream : StreamOutcome) :
    MainResult :=
  if setupOk then
    match processCSV env db0 stream with
    | .ok res => { exitCode := 0, summary := some (totalCounters res), fatalLogged := false }
    | .error cs => { exitCode := 0, summary := some cs, fatalLogged := true }
  else
    { exitCode := 0, summary := none, fatalLogged := true }

/-- A finished resolver call holds an id and the store holds a ticker row
with that id. -/
def GoodState (t : String) (db : StocksDb) : ResolveState → Prop
  | .done r => ∃ id, r = .ok id ∧ selectStock db t = some id
  | _ => True

/-- Invariant of interleaved `getOrCreateStockId` calls for ticker `t`:
never more than one ticker row, and every finished call got the row's id. -/
def Inv (t : String) (cfg : List ResolveState × StocksDb) : Prop :=
  countT cfg.2 t ≤ 1 ∧ ∀ s ∈ cfg.1, GoodState t cfg.2 s

/-! ## Theorems -/

/-- If every attempt's body throws, the retry loop performs every remaining
attempt, waiting `delay` after each failed attempt except the last, and
falls out as `failed` with `failedRetrievals` and `noRankingStocks` each
incremented once. -/
theorem retryLoop_allThrew (env : Env) (api : Nat → ApiResult) (delay : Nat)
    (h : ∀ k, attemptBody env (api k) = AttemptStep.threw) :
    ∀ remaining attempt, retryLoop env api delay attempt remaining =
      { outcome := .failed, attempts := remaining,
        delays := List.replicate (remaining - 1) delay,
        noRankingDelta := 1, failedRetrievalsDelta := 1 } := by
  intro remaining
  induction remaining with
  | zero => intro attempt; rfl
  | succ m ih =>
    intro attempt
    simp only [retryLoop, h attempt, ih (attempt + 1)]
    cases m with
    | zero => rfl
    | succ k => simp [List.replicate_succ]

/-- If the first `d` attempts' bodies throw and attempt `attempt + d`
returns (null or data), the retry loop runs exactly `d + 1` attempts with
`d` backoff waits before the returning attempt. -/
theorem retryLoop_err_then_ret (env : Env) (api : Nat → ApiResult) (delay : Nat) :
    ∀ d remaining attempt, (∀ j, j < d → attemptBody env (api (attempt + j)) = AttemptStep.threw) →
      attemptBody env (api (attempt + d)) = AttemptStep.retNull →
      d < remaining →
      retryLoop env api delay attempt remaining =
        { outcome := .noRanking, attempts := d + 1,
          delays := List.replicate d delay,
          noRankingDelta := 1, failedRetrievalsDelta := 0 } := by
  intro d
  induction d with
  | zero =>
    intro remaining attempt _ hret hlt
    match remaining, hlt with
    | m + 1, _ =>
      simp only [Nat.add_zero] at hret
      simp [retryLoop, hret]
  | succ e ih =>
    intro remaining attempt hpre hret hlt
    match remaining, hlt with
    | m + 1, hlt =>
      have h0 : attemptBody env (api attempt) = AttemptStep.threw := by
        have := hpre 0 (Nat.succ_pos e)
        simpa using this
      have hem : e < m := Nat.lt_of_succ_lt_succ hlt
      have hrest := ih m (attempt + 1)
        (fun j hj => by
          have := hpre (j + 1) (Nat.succ_lt_succ hj)
          simpa [Nat.add_assoc, Nat.add_comm 1 j] using this)
        (by simpa [Nat.add_assoc, Nat.add_comm 1 e] using hret)
        hem
      simp only [retryLoop, h0, hrest]
      have hm : m > 0 := Nat.lt_of_le_of_lt (Nat.zero_le e) hem
      simp [hm, List.replicate_succ]

/-- C4: a fetch whose remote call errors on every attempt performs exactly
`maxRetries` attempts (default 3), with a fixed `delay` wait (default
1000 ms) after each failed attempt except the final one — `maxRetries - 1`
waits in all — and then yields the `Failed` outcome (`failedRetrievals`
incremented, counted once). -/
theorem c4_retry_bound (env : Env) (api : Nat → ApiResult)
    (maxRetries delay : Nat) (h : ∀ k, api k = ApiResult.err) :
    getDataWithRetry env api maxRetries delay =
      { outcome := .failed, attempts := maxRetries,
        delays := List.replicate (maxRetries - 1) delay,
        noRankingDelta := 1, failedRetrievalsDelta := 1 } ∧
    getDataWithRetryDefault env api =
      { outcome := .failed, attempts := 3, delays := [1000, 1000],
        noRankingDelta := 1, failedRetrievalsDelta := 1 } := by
  have hb : ∀ k, attemptBody env (api k) = AttemptStep.threw := by
    intro k; rw [h k]; rfl
  constructor
  · exact retryLoop_allThrew env api delay hb maxRetries 1
  · exact retryLoop_allThrew env api 1000 hb 3 1
      |>.trans (by rfl)

/-- Witness for C4 at a concrete always-erroring api. -/
theorem c4_retry_bound_witness :
    (∀ k : Nat, (fun _ : Nat => ApiResult.err) k = ApiResult.err) ∧
    getDataWithRetryDefault ⟨fun _ => none, 0⟩ (fun _ => ApiResult.err) =
      { outcome := .failed, attempts := 3, delays := [1000, 1000],
        noRankingDelta := 1, failedRetrievalsDelta := 1 } :=
  ⟨fun _ => rfl,
    (c4_retry_bound ⟨fun _ => none, 0⟩ (fun _ => ApiResult.err) 3 1000
      (fun _ => rfl)).2⟩

/-- C5: if the provider returns a null response on attempt `k` (after `k-1`
erroring attempts), the fetch classifies the outcome as no-ranking
immediately on that observation: exactly `k` attempts are made, the only
backoff waits are the `k-1` performed before that attempt (none after it),
`noRankingStocks` is incremented, and `failedRetrievals` is not — a null
response never consumes a retry cycle and is never classified as failed. -/
theorem c5_null_terminal (env : Env) (api : Nat → ApiResult)
    (maxRetries delay k : Nat)
    (hpre : ∀ j, 1 ≤ j → j < k → api j = ApiResult.err)
    (hk : api k = ApiResult.nullResp) (hk1 : 1 ≤ k) (hkm : k ≤ maxRetries) :
    getDataWithRetry env api maxRetries delay =
      { outcome := .noRanking, attempts := k,
        delays := List.replicate (k - 1) delay,
        noRankingDelta := 1, failedRetrievalsDelta := 0 } := by
  have hd : 1 + (k - 1) = k := by omega
  have := retryLoop_err_then_ret env api delay (k - 1) maxRetries 1
    (fun j hj => by
      have h1j : 1 ≤ 1 + j := by omega
      have h2j : 1 + j < k := by omega
      rw [hpre (1 + j) h1j h2j]; rfl)
    (by rw [hd, hk]; rfl)
    (by omega)
  rw [getDataWithRetry, this]
  have : k - 1 + 1 = k := by omega
  rw [this]

/-- Witness for C5: the provider errors on attempt 1 and returns null on
attempt 2. -/
theorem c5_null_terminal_witness :
    (fun j => if j = 1 then ApiResult.err else ApiResult.nullResp) 2 =
      ApiResult.nullResp ∧
    getDataWithRetry ⟨fun _ => none, 0⟩
      (fun j => if j = 1 then ApiResult.err else ApiResult.nullResp) 3 1000 =
      { outcome := .noRanking, attempts := 2, delays := [1000],
        noRankingDelta := 1, failedRetrievalsDelta := 0 } := by
  refine ⟨rfl, ?_⟩
  have := c5_null_terminal ⟨fun _ => none, 0⟩
    (fun j => if j = 1 then ApiResult.err else ApiResult.nullResp) 3 1000 2
    (fun j h1 h2 => by
      have : j = 1 := by omega
      simp [this])
    (by rfl) (by omega) (by omega)
  rw [this]
  rfl

/-- C6: a fetched payload that passes the structural check (it is a record)
and the field checks (`zacksRank`/`zacksRankText` not null) is always
accepted — the `observedAt` (`updatedAt`) handling never rejects it — and
`observedAt` is normalized exactly as claimed: a present, parseable string
becomes the parsed date; a valid `Date` keeps its value; a present but
unparseable value (unparseable string, or invalid `Date`) is replaced by
the current wall-clock time; an absent value is replaced by the current
wall-clock time.  The other fields are passed through unchanged. -/
theorem c6_observedAt_normalization (env : Env) (p : Payload)
    (h1 : jsEqNull p.zacksRank = false) (h2 : jsEqNull p.zacksRankText = false) :
    (∃ q : Payload, attemptBody env (.obj p) = .retData q ∧
      q.zacksRankText = p.zacksRankText ∧ q.zacksRank = p.zacksRank) ∧
    (∀ s t, p.updatedAt = .vstr s → env.parseDate s = some t →
      attemptBody env (.obj p) = .retData { p with updatedAt := .vdate t }) ∧
    (∀ s, p.updatedAt = .vstr s → env.parseDate s = none →
      attemptBody env (.obj p) = .retData { p with updatedAt := .vdate env.now }) ∧
    (∀ t, p.updatedAt = .vdate t →
      attemptBody env (.obj p) = .retData { p with updatedAt := .vdate t }) ∧
    (p.updatedAt = .vdateInvalid →
      attemptBody env (.obj p) = .retData { p with updatedAt := .vdate env.now }) ∧
    (p.updatedAt = .vnull →
      attemptBody env (.obj p) = .retData { p with updatedAt := .vdate env.now }) := by
  obtain ⟨pa, pb, pu⟩ := p
  simp only at h1 h2
  have hcond : (jsEqNull pb || jsEqNull pa) = false := by
    rw [h1, h2]; rfl
  refine ⟨?_, ?_, ?_, ?_, ?_, ?_⟩
  · cases pu with
    | vstr s =>
      cases hp : env.parseDate s with
      | some t =>
        exact ⟨⟨pa, pb, .vdate t⟩, by simp [attemptBody, hcond, hp], rfl, rfl⟩
      | none =>
        exact ⟨⟨pa, pb, .vdate env.now⟩, by simp [attemptBody, hcond, hp], rfl, rfl⟩
    | vnull =>
      exact ⟨⟨pa, pb, .vdate env.now⟩, by simp [attemptBody, hcond], rfl, rfl⟩
    | vnum n =>
      exact ⟨⟨pa, pb, .vdate env.now⟩, by simp [attemptBody, hcond], rfl, rfl⟩
    | vdate t =>
      exact ⟨⟨pa, pb, .vdate t⟩, by simp [attemptBody, hcond], rfl, rfl⟩
    | vdateInvalid =>
      exact ⟨⟨pa, pb, .vdate env.now⟩, by simp [attemptBody, hcond], rfl, rfl⟩
  · intro s t hu hp
    simp only at hu
    subst hu
    simp [attemptBody, hcond, hp]
  · intro s hu hp
    simp only at hu
    subst hu
    simp [attemptBody, hcond, hp]
  · intro t hu
    simp only at hu
    subst hu
    simp [attemptBody, hcond]
  · intro hu
    simp only at hu
    subst hu
    simp [attemptBody, hcond]
  · intro hu
    simp only at hu
    subst hu
    simp [attemptBody, hcond]

/-- Witness for C6 at a concrete payload whose `observedAt` is a parseable
string. -/
theorem c6_observedAt_normalization_witness :
    jsEqNull (JVal.vnum 1) = false ∧
    attemptBody ⟨fun s => if s = "2024-01-02" then some 123 else none, 999⟩
      (.obj ⟨.vstr "Buy", .vnum 1, .vstr "2024-01-02"⟩) =
      .retData ⟨.vstr "Buy", .vnum 1, .vdate 123⟩ := by
  refine ⟨rfl, ?_⟩
  have := (c6_observedAt_normalization
    ⟨fun s => if s = "2024-01-02" then some 123 else none, 999⟩
    ⟨.vstr "Buy", .vnum 1, .vstr "2024-01-02"⟩ rfl rfl).2.1
    "2024-01-02" 123 rfl (by simp)
  simpa using this

/-- C7 counterexample: the claim says a non-record payload is rejected on
first observation, counted as no-ranking, with no retry attempts, no
backoff delays, and no failed-retrieval classification.  In the code
(src/unnamed/part_000 lines 210–213) a non-object payload instead throws
`Invalid data received from API` into the retry `catch`: with the provider
returning a non-object on every attempt at the default settings, the fetch
performs all 3 attempts, waits the 2 backoff delays, and increments
`failedRetrievals` — the behaviour the claim forbids. -/
theorem c7_counterexample :
    getDataWithRetryDefault ⟨fun _ => none, 0⟩ (fun _ => ApiResult.nonObject) =
      { outcome := .failed, attempts := 3, delays := [1000, 1000],
        noRankingDelta := 1, failedRetrievalsDelta := 1 } := by
  rfl

/-- C7 (amended): a payload that is not a structured record makes the
attempt throw, so it is treated exactly like a transient fetch error: with
every attempt returning a non-object, the fetch performs all `maxRetries`
attempts with `maxRetries - 1` backoff delays and is then counted as both
a failed retrieval and a no-ranking row. -/
theorem c7_amended_nonobject_retried (env : Env) (api : Nat → ApiResult)
    (maxRetries delay : Nat) (h : ∀ k, api k = ApiResult.nonObject) :
    getDataWithRetry env api maxRetries delay =
      { outcome := .failed, attempts := maxRetries,
        delays := List.replicate (maxRetries - 1) delay,
        noRankingDelta := 1, failedRetrievalsDelta := 1 } := by
  have hb : ∀ k, attemptBody env (api k) = AttemptStep.threw := by
    intro k; rw [h k]; rfl
  exact retryLoop_allThrew env api delay hb maxRetries 1

/-- Witness for the amended C7 at the default retry settings. -/
theorem c7_amended_nonobject_retried_witness :
    (∀ k : Nat, (fun _ : Nat => ApiResult.nonObject) k = ApiResult.nonObject) ∧
    getDataWithRetry ⟨fun _ => none, 0⟩ (fun _ => ApiResult.nonObject) 3 1000 =
      { outcome := .failed, attempts := 3, delays := [1000, 1000],
        noRankingDelta := 1, failedRetrievalsDelta := 1 } := by
  refine ⟨fun _ => rfl, ?_⟩
  have := c7_amended_nonobject_retried ⟨fun _ => none, 0⟩
    (fun _ => ApiResult.nonObject) 3 1000 (fun _ => rfl)
  rw [this]
  rfl

/-- A pair that has no row in the table is not found by the upsert's
conflict lookup. -/
theorem countPair_zero_find (db : RankingsDb) (sid : Nat) (t : JVal)
    (h : countPair db sid t = 0) :
    db.rows.find? (pairMatch sid t) = none := by
  rw [List.find?_eq_none]
  intro r hr hm
  have hmem : r ∈ db.rows.filter (pairMatch sid t) := List.mem_filter.mpr ⟨hr, hm⟩
  rw [countPair, List.length_eq_zero] at h
  rw [h] at hmem
  exact absurd hmem (List.not_mem_nil r)

/-- C2 counterexample: through `saveZacksRanking` of src/index.js
(lines 30–46, a plain INSERT whose `23505` unique violation is caught and
merely logged), writing two payloads with identical `(stockId, observedAt)`
and differing `rankValue` leaves exactly one row holding the FIRST value:
the second write is silently dropped, nothing is updated in place, and no
`Updated` outcome is reported — refuting the claim for that writer. -/
theorem c2_counterexample :
    (saveZacksRankingSimple
      (saveZacksRankingSimple ⟨[], 0⟩ 1 ⟨.vstr "Buy", .vnum 1, .vdate 500⟩)
      1 ⟨.vstr "Sell", .vnum 2, .vdate 500⟩).rows =
      [⟨0, 1, .vstr "Buy", .vnum 1, .vdate 500⟩] := by
  rfl

/-- C2 (amended): the claim holds of the part_000 writer `saveZacksRanking`
(lines 143–190, `INSERT … ON CONFLICT (stock_id, updatedAt) DO UPDATE …
RETURNING (xmax = 0)`), for payloads passing the writer's validation:
a write whose `(stockId, observedAt)` pair is absent appends exactly one
row carrying the payload and reports `Inserted` (`totalInserts`/
`successfulSaves` incremented); a write whose pair is already present
rewrites `rankLabel`/`rankValue` in place (same number of rows — never a
duplicate — and the row with the new values present) and reports `Updated`;
and two consecutive writes with identical `(stockId, observedAt)` and
differing values leave exactly one row for the pair, holding the second
write's values.  The index.js writer does not satisfy the claim (see the
counterexample). -/
theorem c2_amended_upsert_writer :
    (∀ (db : RankingsDb) (sid : Nat) (p : Payload),
      saveValidationFails p = false →
      countPair db sid p.updatedAt = 0 →
      saveZacksRanking false db sid p =
        .ok (⟨db.rows ++ [⟨db.nextId, sid, p.zacksRankText, p.zacksRank, p.updatedAt⟩],
            db.nextId + 1⟩,
          { czero with successfulSaves := 1, totalInserts := 1 })) ∧
    (∀ (db : RankingsDb) (sid : Nat) (p : Payload) (r : RankingRow),
      saveValidationFails p = false →
      r ∈ db.rows → r.stockId = sid → r.updatedAt = p.updatedAt →
      ∃ db' : RankingsDb,
        saveZacksRanking false db sid p =
          .ok (db', { czero with successfulSaves := 1, totalUpdates := 1 }) ∧
        db'.rows.length = db.rows.length ∧
        { r with zacksRankText := p.zacksRankText, zacksRank := p.zacksRank } ∈ db'.rows) ∧
    (∀ (db : RankingsDb) (sid : Nat) (p1 p2 : Payload),
      saveValidationFails p1 = false → saveValidationFails p2 = false →
      p1.updatedAt = p2.updatedAt →
      countPair db sid p1.updatedAt = 0 →
      ∃ (db1 db2 : RankingsDb) (d1 d2 : Counters),
        saveZacksRanking false db sid p1 = .ok (db1, d1) ∧ d1.totalInserts = 1 ∧
        saveZacksRanking false db1 sid p2 = .ok (db2, d2) ∧ d2.totalUpdates = 1 ∧
        countPair db2 sid p2.updatedAt = 1 ∧
        ∀ r ∈ db2.rows, r.stockId = sid → r.updatedAt = p2.updatedAt →
          r.zacksRankText = p2.zacksRankText ∧ r.zacksRank = p2.zacksRank) := by
  have hins : ∀ (db : RankingsDb) (sid : Nat) (p : Payload),
      saveValidationFails p = false →
      countPair db sid p.updatedAt = 0 →
      saveZacksRanking false db sid p =
        .ok (⟨db.rows ++ [⟨db.nextId, sid, p.zacksRankText, p.zacksRank, p.updatedAt⟩],
            db.nextId + 1⟩,
          { czero with successfulSaves := 1, totalInserts := 1 }) := by
    intro db sid p hval h0
    have hf := countPair_zero_find db sid p.updatedAt h0
    simp [saveZacksRanking, hval, upsertRanking, hf, czero]
  have hupd : ∀ (db : RankingsDb) (sid : Nat) (p : Payload) (r : RankingRow),
      saveValidationFails p = false →
      r ∈ db.rows → r.stockId = sid → r.updatedAt = p.updatedAt →
      saveZacksRanking false db sid p =
        .ok (⟨db.rows.map (fun s =>
              if pairMatch sid p.updatedAt s then
                { s with zacksRankText := p.zacksRankText, zacksRank := p.zacksRank }
              else s),
            db.nextId⟩,
          { czero with successfulSaves := 1, totalUpdates := 1 }) := by
    intro db sid p r hval hr hsid ht
    have hsome : (db.rows.find? (pairMatch sid p.updatedAt)).isSome := by
      rw [List.find?_isSome]
      exact ⟨r, hr, by simp [pairMatch, hsid, ht]⟩
    obtain ⟨r0, hf⟩ := Option.isSome_iff_exists.mp hsome
    simp [saveZacksRanking, hval, upsertRanking, hf, czero]
  refine ⟨hins, ?_, ?_⟩
  · intro db sid p r hval hr hsid ht
    refine ⟨_, hupd db sid p r hval hr hsid ht, by simp, ?_⟩
    have : (fun s =>
        if pairMatch sid p.updatedAt s then
          { s with zacksRankText := p.zacksRankText, zacksRank := p.zacksRank }
        else s) r =
        { r with zacksRankText := p.zacksRankText, zacksRank := p.zacksRank } := by
      simp [pairMatch, hsid, ht]
    exact this ▸ List.mem_map_of_mem _ hr
  · intro db sid p1 p2 hv1 hv2 ht h0
    have h1 := hins db sid p1 hv1 h0
    set newRow : RankingRow :=
      ⟨db.nextId, sid, p1.zacksRankText, p1.zacksRank, p1.updatedAt⟩ with hnew
    set db1 : RankingsDb := ⟨db.rows ++ [newRow], db.nextId + 1⟩ with hdb1
    have hmem1 : newRow ∈ db1.rows := by simp [hdb1]
    have hm : pairMatch sid p2.updatedAt newRow = true := by
      simp [pairMatch, hnew, ht]
    have h2 := hupd db1 sid p2 newRow hv2 hmem1 rfl (by rw [hnew, ht])
    refine ⟨db1, _, _, _, h1, rfl, h2, rfl, ?_, ?_⟩
    · rw [countPair]
      have hfilter1 : db1.rows.filter (pairMatch sid p2.updatedAt) = [newRow] := by
        rw [hdb1]
        rw [List.filter_append]
        have : db.rows.filter (pairMatch sid p2.updatedAt) = [] := by
          rw [← ht]
          rw [countPair, List.length_eq_zero] at h0
          exact h0
        simp [this, hm]
      rw [List.filter_map]
      have hcomp : ((pairMatch sid p2.updatedAt) ∘ (fun s =>
          if pairMatch sid p2.updatedAt s then
            { s with zacksRankText := p2.zacksRankText, zacksRank := p2.zacksRank }
          else s)) = pairMatch sid p2.updatedAt := by
        funext s
        simp only [Function.comp_apply]
        by_cases hs : pairMatch sid p2.updatedAt s = true
        · rw [if_pos hs]
          simp [pairMatch]
        · rw [if_neg hs]
      rw [hcomp, hfilter1]
      rfl
    · intro r hrmem hrsid hrt
      simp only [List.mem_map] at hrmem
      obtain ⟨s, hs, hrs⟩ := hrmem
      by_cases hps : pairMatch sid p2.updatedAt s = true
      · rw [if_pos hps] at hrs
        rw [← hrs]
        exact ⟨rfl, rfl⟩
      · rw [if_neg hps] at hrs
        rw [← hrs] at hrsid hrt
        exact absurd (by simp [pairMatch, hrsid, hrt]) hps

/-- Witness for the amended C2: insert then update at a concrete store. -/
theorem c2_amended_upsert_writer_witness :
    saveValidationFails ⟨.vstr "Sell", .vnum 2, .vdate 500⟩ = false ∧
    ∃ (db1 db2 : RankingsDb) (d1 d2 : Counters),
      saveZacksRanking false ⟨[], 0⟩ 7 ⟨.vstr "Buy", .vnum 1, .vdate 500⟩ =
        .ok (db1, d1) ∧ d1.totalInserts = 1 ∧
      saveZacksRanking false db1 7 ⟨.vstr "Sell", .vnum 2, .vdate 500⟩ =
        .ok (db2, d2) ∧ d2.totalUpdates = 1 ∧
      countPair db2 7 (.vdate 500) = 1 ∧
      ∀ r ∈ db2.rows, r.stockId = 7 → r.updatedAt = .vdate 500 →
        r.zacksRankText = JVal.vstr "Sell" ∧ r.zacksRank = JVal.vnum 2 :=
  ⟨rfl,
    c2_amended_upsert_writer.2.2 ⟨[], 0⟩ 7
      ⟨.vstr "Buy", .vnum 1, .vdate 500⟩ ⟨.vstr "Sell", .vnum 2, .vdate 500⟩
      rfl rfl rfl rfl⟩

/-- C3: the counter identity `totalProcessed = successfulSaves +
failedSaves + noRankingStocks` is broken by the code on the failed-save
path.  One row whose fetch succeeds with a valid payload, whose resolve
succeeds, and whose ranking INSERT fails with a store error is counted as
`failedSaves = 1` and `noRankingStocks = 2`: `saveZacksRanking`'s catch
increments `noRankingStocks` before rethrowing (src/unnamed/part_000
line 185) and `processCSV`'s unit catch increments it again (line 284),
double-counting the row.  At that input `totalProcessed = 1` while the
claimed right-hand side sums to 3. -/
theorem c3_counter_conservation_bug :
    Except.map totalCounters
      (processCSV ⟨fun _ => none, 50⟩ ⟨⟨[], 0⟩, ⟨[], 0⟩⟩
        (.ends [(⟨"AAPL", "Apple"⟩,
          ⟨fun _ => .obj ⟨.vstr "Strong Buy", .vnum 1, .vdate 100⟩,
            false, true⟩)])) =
      .ok ⟨1, 0, 0, 1, 2, 0, 0, 1⟩ ∧
    (1 : Nat) ≠ 0 + 1 + 2 := by
  exact ⟨rfl, by decide⟩

/-- Witness for C3: the run evaluated at the failing input. -/
theorem c3_counter_conservation_bug_witness :
    Except.map totalCounters
      (processCSV ⟨fun _ => none, 50⟩ ⟨⟨[], 0⟩, ⟨[], 0⟩⟩
        (.ends [(⟨"AAPL", "Apple"⟩,
          ⟨fun _ => .obj ⟨.vstr "Strong Buy", .vnum 1, .vdate 100⟩,
            false, true⟩)])) =
      .ok ⟨1, 0, 0, 1, 2, 0, 0, 1⟩ :=
  c3_counter_conservation_bug.1

/-- The counter increments reported by `saveZacksRanking` never touch
`totalProcessed` or `failedProcessing`. -/
theorem saveZacksRanking_ok_delta (crash : Bool) (db : RankingsDb) (sid : Nat)
    (p : Payload) (rdb : RankingsDb) (d : Counters)
    (h : saveZacksRanking crash db sid p = .ok (rdb, d)) :
    d.totalProcessed = 0 ∧ d.failedProcessing = 0 := by
  unfold saveZacksRanking at h
  split at h
  · simp only [Except.ok.injEq, Prod.mk.injEq] at h
    obtain ⟨-, hd⟩ := h
    subst hd
    exact ⟨rfl, rfl⟩
  · split at h
    · simp at h
    · simp only [Except.ok.injEq, Prod.mk.injEq] at h
      obtain ⟨-, hd⟩ := h
      subst hd
      exact ⟨rfl, rfl⟩

/-- As `saveZacksRanking_ok_delta`, for the rethrowing branch. -/
theorem saveZacksRanking_error_delta (crash : Bool) (db : RankingsDb) (sid : Nat)
    (p : Payload) (rdb : RankingsDb) (d : Counters)
    (h : saveZacksRanking crash db sid p = .error (rdb, d)) :
    d.totalProcessed = 0 ∧ d.failedProcessing = 0 := by
  unfold saveZacksRanking at h
  split at h
  · simp at h
  · split at h
    · simp only [Except.error.injEq, Prod.mk.injEq] at h
      obtain ⟨-, hd⟩ := h
      subst hd
      exact ⟨rfl, rfl⟩
    · simp at h

/-- Every started unit is counted in `totalProcessed` exactly once, and a
unit whose boundary caught an exception counts it in `failedProcessing`
exactly once. -/
theorem processRow_delta (env : Env) (db : Db) (row : CsvRow) (beh : RowBehavior) :
    (processRow env db row beh).delta.totalProcessed = 1 ∧
    ((processRow env db row beh).caught = true →
      (processRow env db row beh).delta.failedProcessing = 1) := by
  unfold processRow
  cases hfr : (getDataWithRetryDefault env beh.api).outcome with
  | noRanking => simp [hfr, czero]
  | failed => simp [hfr, czero]
  | success p =>
    cases hres : getOrCreateStockIdRun beh.resolveCrash db.stocks row.ticker row.name with
    | error e => simp [hfr, hres, cadd, czero]
    | ok v =>
      obtain ⟨sid, stocks'⟩ := v
      cases hs : saveZacksRanking beh.saveCrash db.rankings sid p with
      | ok w =>
        obtain ⟨rdb, d⟩ := w
        obtain ⟨hw1, hw2⟩ :=
          saveZacksRanking_ok_delta beh.saveCrash db.rankings sid p rdb d hs
        simp [hfr, hres, hs, cadd, czero, hw1, hw2]
      | error w =>
        obtain ⟨rdb, d⟩ := w
        obtain ⟨hw1, hw2⟩ :=
          saveZacksRanking_error_delta beh.saveCrash db.rankings sid p rdb d hs
        simp [hfr, hres, hs, cadd, czero, hw1, hw2]

/-- The unit fold retains one terminal handle per processed row, each with
the per-unit counting properties. -/
theorem unitFold_spec (env : Env) :
    ∀ (rows : List (CsvRow × RowBehavior)) (acc : RunResult),
      ((rows.foldl (unitFold env) acc).units.length = acc.units.length + rows.length) ∧
      (∀ u ∈ (rows.foldl (unitFold env) acc).units,
        u ∈ acc.units ∨
          (u.1.totalProcessed = 1 ∧ (u.2 = true → u.1.failedProcessing = 1))) := by
  intro rows
  induction rows with
  | nil => intro acc; exact ⟨by simp, fun u hu => Or.inl hu⟩
  | cons rb rest ih =>
    intro acc
    rw [List.foldl_cons]
    obtain ⟨ihl, ihm⟩ := ih (unitFold env acc rb)
    constructor
    · rw [ihl, unitFold]
      simp
      omega
    · intro u hu
      rcases ihm u hu with hmem | hP
      · rw [unitFold] at hmem
        simp only [List.mem_append, List.mem_singleton] at hmem
        rcases hmem with hmem | hmem
        · exact Or.inl hmem
        · subst hmem
          obtain ⟨h1, h2⟩ := processRow_delta env acc.db rb.1 rb.2
          exact Or.inr ⟨h1, h2⟩
      · exact Or.inr hP

/-- C8: the coordinator starts one unit per yielded row and retains its
handle (`pendingPromises`); on end-of-sequence the run is declared complete
(`Promise.all` resolves) only once every started unit has reached its
terminal state — the result holds exactly one settled handle per row, each
having been counted in `totalProcessed`.  A failure inside a single unit
(including an unexpected store error injected through `resolveCrash`/
`saveCrash`) is caught at that unit's boundary and counted
(`failedProcessing`), and the run still completes as `.ok` for every
behaviour of every row — no per-row failure ever aborts sibling units or
the run. -/
theorem c8_unit_supervision (env : Env) (db0 : Db)
    (rows : List (CsvRow × RowBehavior)) :
    ∃ res : RunResult,
      processCSV env db0 (.ends rows) = .ok res ∧
      res.units.length = rows.length ∧
      (∀ u ∈ res.units, u.1.totalProcessed = 1) ∧
      (∀ u ∈ res.units, u.2 = true → u.1.failedProcessing = 1) := by
  refine ⟨rows.foldl (unitFold env) { db := db0, units := [] }, rfl, ?_, ?_, ?_⟩
  · have := (unitFold_spec env rows { db := db0, units := [] }).1
    simpa using this
  · intro u hu
    rcases (unitFold_spec env rows { db := db0, units := [] }).2 u hu with h | h
    · simp at h
    · exact h.1
  · intro u hu
    rcases (unitFold_spec env rows { db := db0, units := [] }).2 u hu with h | h
    · simp at h
    · exact h.2

/-- Witness for C8: a two-row run in which the first row's save crashes
with a store error and the second row proceeds normally. -/
theorem c8_unit_supervision_witness :
    ∃ res : RunResult,
      processCSV ⟨fun _ => none, 50⟩ ⟨⟨[], 0⟩, ⟨[], 0⟩⟩
        (.ends [(⟨"AAPL", "Apple"⟩,
            ⟨fun _ => .obj ⟨.vstr "Strong Buy", .vnum 1, .vdate 100⟩, false, true⟩),
          (⟨"MSFT", "Microsoft"⟩,
            ⟨fun _ => .obj ⟨.vstr "Buy", .vnum 2, .vdate 100⟩, false, false⟩)]) =
        .ok res ∧
      res.units.length = 2 ∧
      (∀ u ∈ res.units, u.1.totalProcessed = 1) ∧
      (∀ u ∈ res.units, u.2 = true → u.1.failedProcessing = 1) := by
  have := c8_unit_supervision ⟨fun _ => none, 50⟩ ⟨⟨[], 0⟩, ⟨[], 0⟩⟩
    [(⟨"AAPL", "Apple"⟩,
        ⟨fun _ => .obj ⟨.vstr "Strong Buy", .vnum 1, .vdate 100⟩, false, true⟩),
      (⟨"MSFT", "Microsoft"⟩,
        ⟨fun _ => .obj ⟨.vstr "Buy", .vnum 2, .vdate 100⟩, false, false⟩)]
  simpa using this

/-- C9: the process always terminates with exit status 0 — in particular
even when individual rows failed; the counter summary (the `Counters`
record carries every printed aggregate: processed, successful saves,
inserts, updates, failed retrievals, failed saves, no-ranking count) is
printed whenever setup succeeded; and a fatal run failure is logged exactly
when the Row Source errored or the store-connection setup failed — per-row
failures, which are folded into the counters inside their unit, never
produce one. -/
theorem c9_exit_semantics (env : Env) (setupOk : Bool) (db0 : Db)
    (st : StreamOutcome) :
    (mainRun env setupOk db0 st).exitCode = 0 ∧
    ((mainRun env setupOk db0 st).fatalLogged = true ↔
      (setupOk = false ∨ st.isErrors = true)) ∧
    (setupOk = true → ∃ c : Counters, (mainRun env setupOk db0 st).summary = some c) := by
  cases setupOk <;> cases st <;>
    simp [mainRun, processCSV, StreamOutcome.isErrors]

/-- Witness for C9: a successful setup and a stream that ends normally. -/
theorem c9_exit_semantics_witness :
    (mainRun ⟨fun _ => none, 0⟩ true ⟨⟨[], 0⟩, ⟨[], 0⟩⟩ (.ends [])).exitCode = 0 ∧
    ((mainRun ⟨fun _ => none, 0⟩ true ⟨⟨[], 0⟩, ⟨[], 0⟩⟩ (.ends [])).fatalLogged = true ↔
      (true = false ∨ (StreamOutcome.ends []).isErrors = true)) ∧
    (true = true → ∃ c : Counters,
      (mainRun ⟨fun _ => none, 0⟩ true ⟨⟨[], 0⟩, ⟨[], 0⟩⟩ (.ends [])).summary = some c) :=
  c9_exit_semantics ⟨fun _ => none, 0⟩ true ⟨⟨[], 0⟩, ⟨[], 0⟩⟩ (.ends [])

/-- The `ON CONFLICT` name refresh does not change which rows match the
ticker. -/
theorem tickMatch_update (t n : String) (s : StockRow) :
    tickMatch t (if tickMatch t s then { s with name := n } else s) =
      tickMatch t s := by
  by_cases hs : tickMatch t s = true
  · rw [if_pos hs]
    simp [tickMatch]
  · rw [if_neg hs]

/-- `find?` commutes with the name-refreshing map. -/
theorem find?_nameUpdate (rows : List StockRow) (t n : String) :
    (rows.map (fun s => if tickMatch t s then { s with name := n } else s)).find?
        (tickMatch t) =
      (rows.find? (tickMatch t)).map
        (fun s => if tickMatch t s then { s with name := n } else s) := by
  rw [List.find?_map]
  have hc : (tickMatch t) ∘
      (fun s => if tickMatch t s then { s with name := n } else s) = tickMatch t :=
    funext fun s => tickMatch_update t n s
  rw [hc]

/-- The name refresh leaves the ticker row count unchanged. -/
theorem countT_nameUpdate (db : StocksDb) (t n : String) :
    countT ⟨db.rows.map (fun s => if tickMatch t s then { s with name := n } else s),
        db.nextId⟩ t = countT db t := by
  simp only [countT]
  rw [List.filter_map]
  have hc : (tickMatch t) ∘
      (fun s => if tickMatch t s then { s with name := n } else s) = tickMatch t :=
    funext fun s => tickMatch_update t n s
  rw [hc, List.length_map]

/-- A ticker whose lookup finds nothing has no rows. -/
theorem countT_zero_of_find_none (db : StocksDb) (t : String)
    (h : db.rows.find? (tickMatch t) = none) : countT db t = 0 := by
  rw [countT, List.length_eq_zero, List.filter_eq_nil_iff]
  intro a ha
  exact List.find?_eq_none.mp h a ha

/-- A successful lookup implies at least one ticker row. -/
theorem selectStock_some_countT_pos (db : StocksDb) (t : String) (id : Nat)
    (h : selectStock db t = some id) : 0 < countT db t := by
  rw [selectStock] at h
  obtain ⟨r, hr, -⟩ := Option.map_eq_some'.mp h
  have hmem : r ∈ db.rows := List.mem_of_find?_eq_some hr
  have hp : tickMatch t r = true := List.find?_some hr
  rw [countT, List.length_pos]
  intro hnil
  have hin : r ∈ db.rows.filter (tickMatch t) := List.mem_filter.mpr ⟨hmem, hp⟩
  rw [hnil] at hin
  exact absurd hin (List.not_mem_nil r)

/-- One statement-step of `getOrCreateStockId` keeps the store race-safe:
the ticker row count stays at most one, the stepped call's state stays
good, and every other call's good state is preserved. -/
theorem gocStep_good (t n : String) (s : ResolveState) (db : StocksDb)
    (hc : countT db t ≤ 1) (hg : GoodState t db s) :
    countT (gocStep t n s db).2 t ≤ 1 ∧
    GoodState t (gocStep t n s db).2 (gocStep t n s db).1 ∧
    (∀ s₀, GoodState t db s₀ → GoodState t (gocStep t n s db).2 s₀) := by
  cases s with
  | done r => exact ⟨hc, hg, fun s₀ h => h⟩
  | atSelect =>
    cases hsel : selectStock db t with
    | some id =>
      simp only [gocStep, hsel]
      exact ⟨hc, ⟨id, rfl, hsel⟩, fun s₀ h => h⟩
    | none =>
      simp only [gocStep, hsel]
      exact ⟨hc, trivial, fun s₀ h => h⟩
  | atInsert =>
    cases hf : db.rows.find? (tickMatch t) with
    | some r =>
      have hid : tickMatch t r = true := List.find?_some hf
      simp only [gocStep, insertStockUpsert, hf]
      have hsel' : selectStock
          ⟨db.rows.map (fun s => if tickMatch t s then { s with name := n } else s),
            db.nextId⟩ t = some r.id := by
        rw [selectStock]
        show ((db.rows.map _).find? (tickMatch t)).map (fun r => r.id) = some r.id
        rw [find?_nameUpdate, hf]
        simp [hid]
      refine ⟨?_, ⟨r.id, rfl, hsel'⟩, ?_⟩
      · rw [countT_nameUpdate]
        exact hc
      · intro s₀ h
        cases s₀ with
        | atSelect => trivial
        | atInsert => trivial
        | done r0 =>
          obtain ⟨id, hok, hsel0⟩ := h
          have hid0 : id = r.id := by
            rw [selectStock, hf] at hsel0
            simp only [Option.map_some'] at hsel0
            exact (Option.some_inj.mp hsel0).symm
          exact ⟨id, hok, by rw [hid0]; exact hsel'⟩
    | none =>
      have hzero : countT db t = 0 := countT_zero_of_find_none db t hf
      simp only [gocStep, insertStockUpsert, hf]
      have hsel' : selectStock
          ⟨db.rows ++ [⟨db.nextId, t, n⟩], db.nextId + 1⟩ t = some db.nextId := by
        rw [selectStock]
        show ((db.rows ++ [(⟨db.nextId, t, n⟩ : StockRow)]).find? (tickMatch t)).map
            (fun r : StockRow => r.id) = some db.nextId
        rw [List.find?_append, hf]
        simp [tickMatch]
      refine ⟨?_, ⟨db.nextId, rfl, hsel'⟩, ?_⟩
      · show countT ⟨db.rows ++ [⟨db.nextId, t, n⟩], db.nextId + 1⟩ t ≤ 1
        have h1 : db.rows.filter (tickMatch t) = [] := by
          rw [countT, List.length_eq_zero] at hzero
          exact hzero
        rw [countT]
        simp [List.filter_append, h1, tickMatch]
      · intro s₀ h
        cases s₀ with
        | atSelect => trivial
        | atInsert => trivial
        | done r0 =>
          obtain ⟨id, hok, hsel0⟩ := h
          rw [selectStock, hf] at hsel0
          simp at hsel0

/-- One scheduled step preserves the race-safety invariant. -/
theorem schedStep_inv (t : String) (names : List String)
    (cfg : List ResolveState × StocksDb) (i : Nat) (h : Inv t cfg) :
    Inv t (schedStep (gocStep t) names cfg i) := by
  obtain ⟨hc, hall⟩ := h
  cases hg : cfg.1.get? i with
  | none =>
    simp only [schedStep, hg]
    exact ⟨hc, hall⟩
  | some s =>
    cases hnm : names.get? i with
    | none =>
      simp only [schedStep, hg, hnm]
      exact ⟨hc, hall⟩
    | some nm =>
      simp only [schedStep, hg, hnm]
      have hs : GoodState t cfg.2 s := hall s (List.get?_mem hg)
      obtain ⟨h1, h2, h3⟩ := gocStep_good t nm s cfg.2 hc hs
      refine ⟨h1, ?_⟩
      intro x hx
      rcases List.mem_or_eq_of_mem_set hx with hmem | heq
      · exact h3 x (hall x hmem)
      · rw [heq]
        exact h2

/-- The race-safety invariant holds after any schedule of interleaved
`getOrCreateStockId` calls on a store with no row for the ticker. -/
theorem runSched_inv (t : String) (names : List String) (sched : List Nat)
    (db0 : StocksDb) (h0 : countT db0 t = 0) :
    Inv t (runSched (gocStep t) names sched db0) := by
  rw [runSched]
  have hinit : Inv t (List.replicate names.length ResolveState.atSelect, db0) := by
    refine ⟨by simp [h0], ?_⟩
    intro s hs
    rw [List.mem_replicate] at hs
    rw [hs.2]
    trivial
  have hfold : ∀ (sched : List Nat) (cfg : List ResolveState × StocksDb),
      Inv t cfg → Inv t (sched.foldl (schedStep (gocStep t) names) cfg) := by
    intro sched
    induction sched with
    | nil => intro cfg h; exact h
    | cons i rest ih =>
      intro cfg h
      rw [List.foldl_cons]
      exact ih _ (schedStep_inv t names cfg i h)
  exact hfold sched _ hinit

/-- Any schedule of any resolver retains one call handle per name. -/
theorem runSched_length
    (stepFn : String → ResolveState → StocksDb → ResolveState × StocksDb)
    (names : List String) (sched : List Nat) (db0 : StocksDb) :
    (runSched stepFn names sched db0).1.length = names.length := by
  rw [runSched]
  have hfold : ∀ (sched : List Nat) (cfg : List ResolveState × StocksDb),
      (sched.foldl (schedStep stepFn names) cfg).1.length = cfg.1.length := by
    intro sched
    induction sched with
    | nil => intro cfg; rfl
    | cons i rest ih =>
      intro cfg
      rw [List.foldl_cons, ih]
      cases hg : cfg.1.get? i <;> cases hnm : names.get? i <;>
        simp only [schedStep, hg, hnm, List.length_set]
  rw [hfold]
  simp

/-- C1 counterexample: the claim says the resolver is implemented by an
atomic insert-with-conflict-resolution and never by a check-then-insert.
`getStockId` of src/index.js (lines 15–28) is a check-then-insert with a
plain INSERT: under the interleaving SELECT₀, SELECT₁, INSERT₀, INSERT₁ of
two concurrent calls for an unseen ticker, both SELECTs miss, the first
INSERT succeeds, and the second INSERT raises the `23505` uniqueness
violation, making the second resolve call fail — an outcome impossible for
an atomic `ON CONFLICT` upsert (compare `c1_amended_goc_race_safe`).
Exactly one Stock row still exists, enforced by the uniqueness constraint
alone. -/
theorem c1_counterexample_gsi_race :
    (runSched (gsiStep "AAPL") ["Apple", "Apple Inc."] [0, 1, 0, 1] ⟨[], 0⟩).1 =
      [ResolveState.done (Except.ok 0), ResolveState.done (Except.error ())] ∧
    countT (runSched (gsiStep "AAPL") ["Apple", "Apple Inc."] [0, 1, 0, 1]
      ⟨[], 0⟩).2 "AAPL" = 1 := by
  constructor
  · rfl
  · rfl

/-- C1 (amended): for `getOrCreateStockId` of src/unnamed/part_000
(lines 116–141) race safety holds in full: for any number of concurrent
resolve calls for a previously-unseen ticker and any interleaving of their
statement steps, once all calls have finished there is exactly one Stock
row for the ticker and every call returned that row's id — no call ever
fails with a uniqueness violation, because the insert path is the atomic
`INSERT … ON CONFLICT (ticker) DO UPDATE` backed by the ticker uniqueness
constraint.  (The initial SELECT is a read-only fast path; it cannot create
rows.)  The claim's "never by a check-then-insert strategy" is refuted by
`getStockId` of src/index.js — see `c1_counterexample_gsi_race`. -/
theorem c1_amended_goc_race_safe (t : String) (names : List String)
    (sched : List Nat) (db0 : StocksDb)
    (h0 : countT db0 t = 0) (hn : 0 < names.length)
    (hdone : ∀ s ∈ (runSched (gocStep t) names sched db0).1, s.isDone = true) :
    countT (runSched (gocStep t) names sched db0).2 t = 1 ∧
    ∀ s ∈ (runSched (gocStep t) names sched db0).1,
      ∃ id, s = ResolveState.done (Except.ok id) ∧
        selectStock (runSched (gocStep t) names sched db0).2 t = some id := by
  obtain ⟨hc, hall⟩ := runSched_inv t names sched db0 h0
  have hstates : ∀ s ∈ (runSched (gocStep t) names sched db0).1,
      ∃ id, s = ResolveState.done (Except.ok id) ∧
        selectStock (runSched (gocStep t) names sched db0).2 t = some id := by
    intro s hs
    have hd := hdone s hs
    cases s with
    | done r =>
      obtain ⟨id, hok, hsel⟩ := hall _ hs
      exact ⟨id, by rw [hok], hsel⟩
    | atSelect => exact absurd hd (by simp [ResolveState.isDone])
    | atInsert => exact absurd hd (by simp [ResolveState.isDone])
  refine ⟨?_, hstates⟩
  have hlen : 0 < (runSched (gocStep t) names sched db0).1.length := by
    rw [runSched_length]
    exact hn
  obtain ⟨s0, hs0⟩ := List.exists_mem_of_length_pos hlen
  obtain ⟨id, -, hsel⟩ := hstates s0 hs0
  have hpos := selectStock_some_countT_pos _ t id hsel
  omega

/-- Witness for the amended C1: two concurrent `getOrCreateStockId` calls
under the racing schedule SELECT₀, SELECT₁, INSERT₀, INSERT₁. -/
theorem c1_amended_goc_race_safe_witness :
    countT (⟨[], 0⟩ : StocksDb) "AAPL" = 0 ∧
    countT (runSched (gocStep "AAPL") ["Apple", "Apple Inc."] [0, 1, 0, 1]
      ⟨[], 0⟩).2 "AAPL" = 1 ∧
    ∀ s ∈ (runSched (gocStep "AAPL") ["Apple", "Apple Inc."] [0, 1, 0, 1]
        ⟨[], 0⟩).1,
      ∃ id, s = ResolveState.done (Except.ok id) ∧
        selectStock (runSched (gocStep "AAPL") ["Apple", "Apple Inc."]
          [0, 1, 0, 1] ⟨[], 0⟩).2 "AAPL" = some id := by
  have h := c1_amended_goc_race_safe "AAPL" ["Apple", "Apple Inc."]
    [0, 1, 0, 1] ⟨[], 0⟩ rfl (by decide) (by decide)
  exact ⟨rfl, h.1, h.2⟩

/-- C10: for `getOrCreateStockId` (src/unnamed/part_000 lines 116–141):
a call whose initial SELECT finds a row for the ticker returns that row's
id with the store completely unchanged — the stored name is not touched and
no row is created (both as a single statement step and as the whole call);
a SELECT miss merely advances the call to its INSERT step; the INSERT step
overwrites the stored name with the supplied one exactly when it hits the
ticker conflict (keeping the row's id and touching no other row), and
otherwise appends a fresh row, leaving every existing row unchanged.
Hence the supplied name overwrites a stored name only on the
lookup-missed-then-conflict path. -/
theorem c10_resolver_frame (db : StocksDb) (t n : String) :
    (∀ id, selectStock db t = some id →
      gocStep t n ResolveState.atSelect db = (ResolveState.done (Except.ok id), db) ∧
      getOrCreateStockIdRun false db t n = Except.ok (id, db)) ∧
    (selectStock db t = none →
      gocStep t n ResolveState.atSelect db = (ResolveState.atInsert, db)) ∧
    (∀ r, db.rows.find? (tickMatch t) = some r →
      gocStep t n ResolveState.atInsert db =
        (ResolveState.done (Except.ok r.id),
          ⟨db.rows.map (fun s => if tickMatch t s then { s with name := n } else s),
            db.nextId⟩)) ∧
    (db.rows.find? (tickMatch t) = none →
      gocStep t n ResolveState.atInsert db =
        (ResolveState.done (Except.ok db.nextId),
          ⟨db.rows ++ [⟨db.nextId, t, n⟩], db.nextId + 1⟩)) := by
  refine ⟨?_, ?_, ?_, ?_⟩
  · intro id h
    constructor
    · simp [gocStep, h]
    · simp [getOrCreateStockIdRun, h]
  · intro h
    simp [gocStep, h]
  · intro r h
    simp [gocStep, insertStockUpsert, h]
  · intro h
    simp [gocStep, insertStockUpsert, h]

/-- Witness for C10: a store already holding the ticker row. -/
theorem c10_resolver_frame_witness :
    selectStock ⟨[⟨5, "AAPL", "Apple"⟩], 6⟩ "AAPL" = some 5 ∧
    gocStep "AAPL" "Apple Inc." ResolveState.atSelect ⟨[⟨5, "AAPL", "Apple"⟩], 6⟩ =
      (ResolveState.done (Except.ok 5), ⟨[⟨5, "AAPL", "Apple"⟩], 6⟩) ∧
    getOrCreateStockIdRun false ⟨[⟨5, "AAPL", "Apple"⟩], 6⟩ "AAPL" "Apple Inc." =
      Except.ok (5, ⟨[⟨5, "AAPL", "Apple"⟩], 6⟩) := by
  have h := (c10_resolver_frame ⟨[⟨5, "AAPL", "Apple"⟩], 6⟩ "AAPL" "Apple Inc.").1
    5 (by rfl)
  exact ⟨rfl, h.1, h.2⟩

end Zacks
